import Mathlib

/-!
# A shallow embedding of the Egg language (parser and evaluator)

The repository implements "Egg", a minimal expression language: a
recursive-descent parser producing a three-variant expression tree, and a
tree-walking evaluator running that tree against a prototype-chained
environment.  This file translates the final snapshot of the source
(the file containing `skipSpace` with comment support, `specialForms` with
the six forms `if`/`while`/`do`/`define`/`set`/`fun`, and the `run` driver)
into executable Lean definitions and proves properties about them.

Modelling conventions:
* Host numbers are modelled as `Int`.  Every Egg numeric literal is a run of
  decimal digits and the arithmetic used by the properties below stays
  integral; places where the host would produce a non-integral double,
  `NaN`, `undefined`, or otherwise host-specific data are mapped to the
  explicit `Outcome.hostDep` marker rather than being approximated.
* The prototype chain of environment objects becomes a store of `Frame`s
  indexed by `Nat`, each frame holding its own bindings (own properties)
  plus an optional parent index (the prototype link).
* The evaluator may diverge (`while`, recursion), so every evaluation
  function consumes explicit fuel; running out of fuel yields
  `Outcome.fuelOut`, which is distinct from every error the program itself
  can raise.  The parser is fuelled the same way, although the source
  parser terminates on every input.
* Thrown host exceptions (`SyntaxError`, `TypeError`, `ReferenceError`)
  become the `EggError` sum, propagated monadically.
-/

namespace Egg

/-! ## Expression trees

From the source: `{type: "value", value: ...}` carries a string or a number,
`{type: "word", name: ...}` an identifier, `{type: "apply", operator: ...,
args: [...]}` an application. -/

/-- Payload of a `value` node: the parser only ever stores a number or a
string there. -/
inductive Lit where
  | num (n : Int)
  | str (s : String)
deriving Repr, DecidableEq

/-- The three expression variants of the source AST. -/
inductive Expr where
  | value (v : Lit)
  | word (name : String)
  | apply (operator : Expr) (args : List Expr)
deriving Repr

/-! ## The parser

`skipSpace` in the final snapshot strips the longest prefix matching
`(\s|#.*)*`: any interleaving of whitespace characters and `#`-to-end-of-line
comments.  The regex alternation is rendered as a two-mode scan: outside a
comment, whitespace is consumed and `#` enters comment mode; inside a
comment every character up to and including the terminating newline is
consumed (the newline itself is consumed by the `\s` branch in the regex,
with the same effect). -/

/-- The ASCII whitespace characters matched by the host's `\s` class.  (The
host class also contains Unicode space characters, which no property below
exercises.) -/
def jsIsSpace (c : Char) : Bool :=
  c = ' ' || c = '\t' || c = '\n' || c = '\r' || c = '\x0b' || c = '\x0c'

/-- Two-mode scanner for the `(\s|#.*)*` separator prefix: the flag records
whether the scan is inside a `#` line comment. -/
def skipSpaceAux : Bool → List Char → List Char
  | _, [] => []
  | true, c :: rest =>
    if c = '\n' then skipSpaceAux false rest else skipSpaceAux true rest
  | false, c :: rest =>
    if jsIsSpace c then skipSpaceAux false rest
    else if c = '#' then skipSpaceAux true rest
    else c :: rest

/-- `skipSpace` from the source: drop the longest separator prefix
(whitespace and line comments, in any repetition and order). -/
def skipSpace (l : List Char) : List Char := skipSpaceAux false l

/-- Word characters of the host's `\w` class, used by the `\b` boundary in
the number rule `/^\d+\b/`. -/
def isWordBoundaryChar (c : Char) : Bool :=
  !(c.isAlpha || c.isDigit || c = '_')

/-- Characters an Egg identifier may contain: the word rule is
`/^[^\s(),"]+/`. -/
def isEggWordChar (c : Char) : Bool :=
  !(jsIsSpace c || c = '(' || c = ')' || c = ',' || c = '"')

/-- The string rule `/^"([^"]*)"/`: a double quote, any run of non-quote
characters, and a closing double quote.  Returns the contents and the
remainder after the closing quote, or `none` when the rule does not match. -/
def stringMatch : List Char → Option (String × List Char)
  | '"' :: rest =>
    match rest.dropWhile (fun c => !(c = '"')) with
    | '"' :: after => some (String.mk (rest.takeWhile (fun c => !(c = '"'))), after)
    | _ => none
  | _ => none

/-- Value of a run of decimal digits (the host's `Number` on such a string,
exact for the integral inputs the properties use). -/
def digitsToInt (ds : List Char) : Int :=
  ds.foldl (fun acc c => acc * 10 + (Int.ofNat (c.toNat - '0'.toNat))) 0

/-- The number rule `/^\d+\b/`: a nonempty digit run whose following
character (if any) is not a word character — otherwise the regex has no
word boundary anywhere in the run and fails, letting the word rule claim
the characters instead. -/
def numberMatch (l : List Char) : Option (Int × List Char) :=
  let ds := l.takeWhile (fun c => c.isDigit)
  if ds.isEmpty then none
  else
    match l.dropWhile (fun c => c.isDigit) with
    | [] => some (digitsToInt ds, [])
    | c :: rest =>
      if isWordBoundaryChar c then some (digitsToInt ds, c :: rest) else none

/-- The word rule `/^[^\s(),"]+/`: a maximal nonempty run of identifier
characters. -/
def wordMatch (l : List Char) : Option (String × List Char) :=
  let ws := l.takeWhile isEggWordChar
  if ws.isEmpty then none
  else some (String.mk ws, l.dropWhile isEggWordChar)

/-- Parser failures: the source throws `SyntaxError`; `fuelErr` marks fuel
exhaustion of the embedding (never reached with enough fuel). -/
inductive PErr where
  | syntaxErr (msg : String)
  | fuelErr
deriving Repr, DecidableEq

/-- Result of `parseExpression`/`parseApply`: the source's
`{expr: ..., rest: ...}` pair. -/
structure PRes where
  expr : Expr
  rest : List Char

mutual

/-- `parseExpression` from the source: skip separators, try the string,
number and word rules in that order, then hand the parsed atom to
`parseApply`.  No rule matching is the source's
`SyntaxError("Unexected syntax: ...")` (typo included). -/
def parseExpression : Nat → List Char → Except PErr PRes
  | 0, _ => .error .fuelErr
  | fuel + 1, prog =>
    let p := skipSpace prog
    match stringMatch p with
    | some (s, rest) => parseApply fuel (.value (.str s)) rest
    | none =>
      match numberMatch p with
      | some (n, rest) => parseApply fuel (.value (.num n)) rest
      | none =>
        match wordMatch p with
        | some (w, rest) => parseApply fuel (.word w) rest
        | none => .error (.syntaxErr ("Unexected syntax: " ++ String.mk p))

/-- `parseApply` from the source: after an expression, a `(` opens an
argument list (parsed by `parseArgs`, the source's `while` loop); anything
else returns the expression unchanged with the separator-stripped rest. -/
def parseApply : Nat → Expr → List Char → Except PErr PRes
  | 0, _, _ => .error .fuelErr
  | fuel + 1, e, prog =>
    let p := skipSpace prog
    match p with
    | '(' :: rest => parseArgs fuel e [] (skipSpace rest)
    | _ => .ok ⟨e, p⟩

/-- The argument-list loop of `parseApply`: stop at `)` (then look for a
further `(`-list via `parseApply`, supporting `f(x)(y)`); otherwise parse
one argument, then consume a `,` (re-entering the loop, which re-checks for
`)` — this is what admits one trailing comma) or fall through to the `)`
check; anything else is `SyntaxError("Expected ',' or ')'")`. -/
def parseArgs : Nat → Expr → List Expr → List Char → Except PErr PRes
  | 0, _, _, _ => .error .fuelErr
  | fuel + 1, op, args, prog =>
    match prog with
    | ')' :: rest => parseApply fuel (.apply op args) rest
    | _ =>
      match parseExpression fuel prog with
      | .ok r =>
        match skipSpace r.rest with
        | ',' :: rest2 => parseArgs fuel op (args ++ [r.expr]) (skipSpace rest2)
        | ')' :: rest2 => parseArgs fuel op (args ++ [r.expr]) (')' :: rest2)
        | _ => .error (.syntaxErr "Expected \x27,\x27 or \x27)\x27")
      | .error e => .error e

end

/-- `parse` from the source: parse one expression and demand that only
separators remain. -/
def parse (fuel : Nat) (program : String) : Except PErr Expr :=
  match parseExpression fuel program.data with
  | .ok r =>
    if (skipSpace r.rest).length > 0 then
      .error (.syntaxErr "Unexpected text after program")
    else .ok r.expr
  | .error e => .error e

/-! ## Runtime values and the environment store

The source represents environments as host objects linked by prototype:
`topEnv = Object.create(null)` is the root, `Object.create(env)` builds a
child.  Here a `Frame` holds the own properties of one such object and the
optional index of its prototype; an evaluation state is the list of all
frames allocated so far (a frame's parent always has a smaller index). -/

/-- Tags for the host-provided built-in functions installed in `topEnv`:
the seven synthesized binary operators, `print`, and the three array
primitives. -/
inductive Native where
  | add | sub | mul | div | eq | lt | gt
  | printFn | arrayFn | lengthFn | elementFn
deriving Repr, DecidableEq

/-- Runtime values: numbers, strings, the two booleans, host arrays, Egg
closures (parameter names, body, and the index of the defining frame), and
native built-ins. -/
inductive Value where
  | num (n : Int)
  | str (s : String)
  | bool (b : Bool)
  | arr (elems : List Value)
  | closure (params : List String) (body : Expr) (env : Nat)
  | native (f : Native)
deriving Repr

/-- One environment object: its own bindings plus its prototype link
(`none` exactly for the root `topEnv`). -/
structure Frame where
  bindings : List (String × Value)
  parent : Option Nat
deriving Repr

/-- Evaluation state: the store of all frames and the values printed so
far (the observable effect of the `print` built-in). -/
structure EState where
  frames : List Frame
  output : List Value
deriving Repr

/-- The three exception kinds the source throws. -/
inductive EggError where
  | syntaxError (msg : String)
  | typeError (msg : String)
  | referenceError (msg : String)
deriving Repr, DecidableEq

/-- Result of an evaluation step: a value, a thrown error, fuel exhaustion
of the embedding, or `hostDep` marking a path whose outcome depends on
host semantics not modelled here (`NaN`, `undefined`, reference identity of
host objects, non-integral division results, ...).  No property below ever
reaches a `hostDep` path. -/
inductive Outcome (α : Type) where
  | ok (a : α)
  | err (e : EggError)
  | fuelOut
  | hostDep
deriving Repr

/-- Exception-propagating sequencing: errors, fuel exhaustion and `hostDep`
all abort, as a thrown host exception would. -/
def Outcome.bind : Outcome α → (α → Outcome β) → Outcome β
  | .ok a, f => f a
  | .err e, _ => .err e
  | .fuelOut, _ => .fuelOut
  | .hostDep, _ => .hostDep

/-- Own-property read on one frame. -/
def lookupOwn (bs : List (String × Value)) (n : String) : Option Value :=
  match bs.find? (fun p => p.1 = n) with
  | some p => some p.2
  | none => none

/-- `Object.hasOwnProperty.call(env, n)`: does this frame itself own a
binding for `n`? -/
def ownsName (fr : Frame) (n : String) : Bool :=
  fr.bindings.any (fun p => p.1 = n)

/-- Host property assignment `env[n] = v` on one binding list: overwrite
the existing own binding or append a new one. -/
def setOwn : List (String × Value) → String → Value → List (String × Value)
  | [], n, v => [(n, v)]
  | (k, w) :: rest, n, v =>
    if k = n then (n, v) :: rest else (k, w) :: setOwn rest n v

/-- `env[n] = v` on the frame with index `id` in the store. -/
def updateBinding (frames : List Frame) (id : Nat) (n : String) (v : Value) :
    List Frame :=
  match frames[id]? with
  | some fr => frames.set id { fr with bindings := setOwn fr.bindings n v }
  | none => frames

/-- The host's `n in env`: look `n` up along the prototype chain, own
properties first.  `gas` bounds the walk; the stores built by evaluation
have every parent index smaller than the child's, so `frames.length` gas
always completes the walk. -/
def lookupChain (frames : List Frame) (n : String) : Nat → Nat → Option Value
  | _, 0 => none
  | id, gas + 1 =>
    match frames[id]? with
    | none => none
    | some fr =>
      match lookupOwn fr.bindings n with
      | some v => some v
      | none =>
        match fr.parent with
        | some p => lookupChain frames n p gas
        | none => none

/-- Result of the `set` walk: the store after a successful in-place
mutation, the fall-through of the loop (the thrown `ReferenceError`), or
gas exhaustion (unreachable on the stores evaluation builds). -/
inductive SetRes where
  | updated (frames : List Frame)
  | notFound
  | gasOut
deriving Repr

/-- The loop of `specialForms["set"]`:
`while (Object.getPrototypeOf(env) != null) { if (hasOwn(env, n)) { env[n] = v; return v; } env = Object.getPrototypeOf(env); }`.
Note the loop guard: a frame whose prototype is `null` — the root frame —
is never examined, so an own binding of the root can never be found. -/
def setWalk (frames : List Frame) (n : String) (v : Value) :
    Nat → Nat → SetRes
  | _, 0 => .gasOut
  | id, gas + 1 =>
    match frames[id]? with
    | none => .gasOut
    | some fr =>
      match fr.parent with
      | none => .notFound
      | some _ =>
        if ownsName fr n then .updated (updateBinding frames id n v)
        else
          match fr.parent with
          | some p => setWalk frames n v p gas
          | none => .notFound

/-! ## The `==` built-in

The source synthesizes `==` as `new Function("a, b", "return a == b;")`,
i.e. the host's *loose* equality.  On same-variant primitive operands that
is payload equality; across Number/Text/Boolean the host coerces (Boolean
to 0/1, Text to its numeric value) before comparing, so cross-variant pairs
can compare equal.  Text operands outside the simple decimal forms (hex,
exponent, decimal-point notations) and non-primitive operands (host
reference identity) are left `none` = host-dependent. -/

/-- The host's `Number(s)` on a string, restricted to the forms modelled:
surrounding whitespace is trimmed, the empty remainder is `0`, an optional
sign followed by decimal digits is its value; anything else is `none`
(either `NaN` or an unmodelled numeric notation). -/
def simpleIntString? (s : String) : Option Int :=
  let t := (((s.data.dropWhile jsIsSpace).reverse.dropWhile jsIsSpace).reverse)
  let digitVal : List Char → Option Int := fun ds =>
    if ds.isEmpty || !(ds.all (fun c => c.isDigit)) then none
    else some (digitsToInt ds)
  match t with
  | [] => some 0
  | '+' :: ds => digitVal ds
  | '-' :: ds => (digitVal ds).map (fun n => -n)
  | ds => digitVal ds

/-- Loose equality on the modelled value variants: `some b` when the host
result is determined by the model, `none` when it would depend on
unmodelled host behaviour. -/
def eqLoose : Value → Value → Option Bool
  | .num a, .num b => some (decide (a = b))
  | .str s, .str t => some (decide (s = t))
  | .bool p, .bool q => some (decide (p = q))
  | .num a, .str s =>
    match simpleIntString? s with
    | some n => some (decide (a = n))
    | none => none
  | .str s, .num b =>
    match simpleIntString? s with
    | some n => some (decide (n = b))
    | none => none
  | .num a, .bool q => some (decide (a = (if q then 1 else 0)))
  | .bool p, .num b => some (decide ((if p then (1 : Int) else 0) = b))
  | .str s, .bool q =>
    match simpleIntString? s with
    | some n => some (decide (n = (if q then (1 : Int) else 0)))
    | none => none
  | .bool p, .str t =>
    match simpleIntString? t with
    | some n => some (decide ((if p then (1 : Int) else 0) = n))
    | none => none
  | _, _ => none

/-- Invoke a native built-in on already-evaluated argument values.  The
host functions never check arity: extra arguments are ignored, and calls
whose behaviour would involve `undefined`, string/array coercion, `NaN`,
`Infinity`, non-integral quotients, UTF-16 string lengths or host
reference identity are mapped to `hostDep`. -/
def applyNative : Native → List Value → EState → Outcome (Value × EState)
  | .add, .num a :: .num b :: _, st => .ok (.num (a + b), st)
  | .sub, .num a :: .num b :: _, st => .ok (.num (a - b), st)
  | .mul, .num a :: .num b :: _, st => .ok (.num (a * b), st)
  | .div, .num a :: .num b :: _, st =>
    if b ≠ 0 ∧ b ∣ a then .ok (.num (a / b), st) else .hostDep
  | .eq, a :: b :: _, st =>
    match eqLoose a b with
    | some r => .ok (.bool r, st)
    | none => .hostDep
  | .lt, .num a :: .num b :: _, st => .ok (.bool (decide (a < b)), st)
  | .gt, .num a :: .num b :: _, st => .ok (.bool (decide (b < a)), st)
  | .printFn, v :: _, st => .ok (v, { st with output := st.output ++ [v] })
  | .arrayFn, vs, st => .ok (.arr vs, st)
  | .lengthFn, .arr vs :: _, st => .ok (.num (Int.ofNat vs.length), st)
  | .elementFn, .arr vs :: .num i :: _, st =>
    match vs[i.toNat]? with
    | some v => if 0 ≤ i then .ok (v, st) else .hostDep
    | none => .hostDep
  | _, _, _ => .hostDep

/-! ## The evaluator -/

/-- `typeof op == "function"` holds exactly for closures and the native
built-ins. -/
def isCallable : Value → Bool
  | .closure _ _ _ => true
  | .native _ => true
  | _ => false

/-- The evaluator's `!== false` test (used by `if` and `while`): exactly
the boolean `false` is falsy. -/
def isJsFalse : Value → Bool
  | .bool false => true
  | _ => false

/-- A literal node evaluates to its own payload. -/
def litToValue : Lit → Value
  | .num n => .num n
  | .str s => .str s

/-- The keys of the source's `specialForms` object (final snapshot). -/
def specialFormNames : List String :=
  ["if", "while", "do", "define", "set", "fun"]

/-- Is this operator expression a word naming a special form?  (The
dispatch test `expr.operator.type == "word" && expr.operator.name in
specialForms`.) -/
def isSpecialOp : Expr → Bool
  | .word n => specialFormNames.contains n
  | _ => false

/-- The parameter-name extraction of `specialForms["fun"]`: every argument
before the body must be a word, else `SyntaxError("Arg names must be
words")`. -/
def wordNames : List Expr → Option (List String)
  | [] => some []
  | .word n :: rest => (wordNames rest).map (fun ns => n :: ns)
  | _ :: _ => none

/-- `args.slice(0, args.length - 1)` and `args[args.length - 1]` of the
`fun` form, on a nonempty list given as head and tail. -/
def splitLast : Expr → List Expr → List Expr × Expr
  | a, [] => ([], a)
  | a, b :: rest =>
    let r := splitLast b rest
    (a :: r.1, r.2)

/-- The parameter-binding loop of a closure call:
`for (i...) localEnv[argNames[i]] = arguments[i]` starting from an empty
own-binding set. -/
def bindParams (params : List String) (args : List Value) :
    List (String × Value) :=
  (params.zip args).foldl (fun bs pv => setOwn bs pv.1 pv.2) []

mutual

/-- `evaluate(expr, env)` from the source, with explicit fuel and an
explicit frame store.  `value` nodes return their payload; `word` nodes
look the name up along the prototype chain (`ReferenceError` when absent
everywhere); an `apply` whose operator is a word naming a special form
dispatches to the form's handler with the raw argument expressions, and
every other `apply` evaluates operator and arguments. -/
def evaluate : Nat → Expr → Nat → EState → Outcome (Value × EState)
  | 0, _, _, _ => .fuelOut
  | _ + 1, .value l, _, st => .ok (litToValue l, st)
  | _ + 1, .word n, envId, st =>
    match lookupChain st.frames n envId st.frames.length with
    | some v => .ok (v, st)
    | none => .err (.referenceError ("Undefined variable: " ++ n))
  | fuel + 1, .apply op args, envId, st =>
    match op with
    | .word n =>
      if specialFormNames.contains n then evalSpecialForm fuel n args envId st
      else evalApply fuel op args envId st
    | _ => evalApply fuel op args envId st
termination_by structural fuel => fuel

/-- Ordinary application: evaluate the operator, throw
`TypeError("Applying a non-function.")` unless it is callable (the check
precedes argument evaluation, as in the source), evaluate the arguments
left to right, and invoke. -/
def evalApply : Nat → Expr → List Expr → Nat → EState →
    Outcome (Value × EState)
  | 0, _, _, _, _ => .fuelOut
  | fuel + 1, op, args, envId, st =>
    Outcome.bind (evaluate fuel op envId st) (fun vs =>
      if isCallable vs.1 then
        Outcome.bind (evalArgs fuel args envId vs.2) (fun avs =>
          callValue fuel vs.1 avs.1 avs.2)
      else .err (.typeError "Applying a non-function."))
termination_by structural fuel => fuel

/-- `expr.args.map(arg => evaluate(arg, env))`: left-to-right evaluation of
the argument expressions, threading the store. -/
def evalArgs : Nat → List Expr → Nat → EState →
    Outcome (List Value × EState)
  | 0, _, _, _ => .fuelOut
  | _ + 1, [], _, st => .ok ([], st)
  | fuel + 1, a :: rest, envId, st =>
    Outcome.bind (evaluate fuel a envId st) (fun vs =>
      Outcome.bind (evalArgs fuel rest envId vs.2) (fun rs =>
        .ok (vs.1 :: rs.1, rs.2)))
termination_by structural fuel => fuel

/-- Invoke an already-evaluated callable.  A closure first checks
`arguments.length != argNames.length` (`TypeError("Wrong number of
arguments")`), then evaluates its body in a fresh frame whose prototype is
the frame captured at the `fun`'s definition and whose own bindings map
each parameter to its actual. -/
def callValue : Nat → Value → List Value → EState →
    Outcome (Value × EState)
  | 0, _, _, _ => .fuelOut
  | fuel + 1, .closure params body defEnv, argVals, st =>
    if argVals.length ≠ params.length then
      .err (.typeError "Wrong number of arguments")
    else
      evaluate fuel body st.frames.length
        { st with frames := st.frames ++ [⟨bindParams params argVals, some defEnv⟩] }
  | _ + 1, .native f, argVals, st => applyNative f argVals st
  | _ + 1, _, _, _ => .err (.typeError "Applying a non-function.")
termination_by structural fuel => fuel

/-- The handlers of the source's `specialForms` object, dispatched on the
operator name; each receives the raw argument expressions. -/
def evalSpecialForm : Nat → String → List Expr → Nat → EState →
    Outcome (Value × EState)
  | 0, _, _, _, _ => .fuelOut
  | fuel + 1, name, args, envId, st =>
    if name = "if" then
      match args with
      | [c, t, e] =>
        Outcome.bind (evaluate fuel c envId st) (fun vs =>
          if isJsFalse vs.1 then evaluate fuel e envId vs.2
          else evaluate fuel t envId vs.2)
      | _ => .err (.syntaxError "Bad number of args to if")
    else if name = "while" then
      match args with
      | [c, b] => whileLoop fuel c b envId st
      | _ => .err (.syntaxError "Bad number of args to while")
    else if name = "do" then
      evalSeq fuel args envId st (.bool false)
    else if name = "define" then
      match args with
      | [.word n, vexpr] =>
        Outcome.bind (evaluate fuel vexpr envId st) (fun vs =>
          .ok (vs.1, { vs.2 with frames := updateBinding vs.2.frames envId n vs.1 }))
      | _ => .err (.syntaxError "Bad use of define")
    else if name = "set" then
      match args with
      | [.word n, vexpr] =>
        Outcome.bind (evaluate fuel vexpr envId st) (fun vs =>
          match setWalk vs.2.frames n vs.1 envId vs.2.frames.length with
          | .updated frames2 => .ok (vs.1, { vs.2 with frames := frames2 })
          | .notFound => .err (.referenceError ("Unknown variable: " ++ n))
          | .gasOut => .hostDep)
      | _ => .err (.syntaxError "Bad use of set")
    else if name = "fun" then
      match args with
      | [] => .err (.syntaxError "Functions need a body")
      | a :: rest =>
        match wordNames (splitLast a rest).1 with
        | some params => .ok (.closure params (splitLast a rest).2 envId, st)
        | none => .err (.syntaxError "Arg names must be words")
    else .hostDep
termination_by structural fuel => fuel

/-- The loop of `specialForms["while"]`: re-evaluate the condition before
each iteration, run the body while the condition is not the boolean
`false`, and finally return `false` (the source's comment: for lack of a
meaningful result). -/
def whileLoop : Nat → Expr → Expr → Nat → EState → Outcome (Value × EState)
  | 0, _, _, _, _ => .fuelOut
  | fuel + 1, c, b, envId, st =>
    Outcome.bind (evaluate fuel c envId st) (fun vs =>
      if isJsFalse vs.1 then .ok (.bool false, vs.2)
      else
        Outcome.bind (evaluate fuel b envId vs.2) (fun bs =>
          whileLoop fuel c b envId bs.2))
termination_by structural fuel => fuel

/-- The loop of `specialForms["do"]`: evaluate every argument in order,
returning the last value (`false` when there are no arguments). -/
def evalSeq : Nat → List Expr → Nat → EState → Value →
    Outcome (Value × EState)
  | 0, _, _, _, _ => .fuelOut
  | _ + 1, [], _, st, acc => .ok (acc, st)
  | fuel + 1, a :: rest, envId, st, _ =>
    Outcome.bind (evaluate fuel a envId st) (fun vs =>
      evalSeq fuel rest envId vs.2 vs.1)
termination_by structural fuel => fuel

end

/-! ## The global environment and the `run` driver -/

/-- `topEnv`: the root frame, with `true`, `false`, the seven synthesized
operators, `print`, and the three array built-ins as own properties and a
`null` prototype. -/
def topFrame : Frame :=
  { bindings :=
      [("true", .bool true), ("false", .bool false),
       ("+", .native .add), ("-", .native .sub), ("*", .native .mul),
       ("/", .native .div), ("==", .native .eq), ("<", .native .lt),
       (">", .native .gt), ("print", .native .printFn),
       ("array", .native .arrayFn), ("length", .native .lengthFn),
       ("element", .native .elementFn)],
    parent := none }

/-- The store `run` starts from: `topEnv` (index 0) and the fresh program
environment `Object.create(topEnv)` (index 1). -/
def runState : EState :=
  { frames := [topFrame, { bindings := [], parent := some 0 }], output := [] }

/-- `run(...)` from the source: join the argument lines with newlines,
parse, and evaluate against a fresh environment whose prototype is
`topEnv`. -/
def run (pf ef : Nat) (lines : List String) : Outcome (Value × EState) :=
  match parse pf (String.intercalate "\n" lines) with
  | .ok e => evaluate ef e 1 runState
  | .error (.syntaxErr m) => .err (.syntaxError m)
  | .error .fuelErr => .fuelOut

/-- The value a `run` produces, with the final store dropped. -/
def runValue (pf ef : Nat) (lines : List String) : Outcome Value :=
  match run pf ef lines with
  | .ok vs => .ok vs.1
  | .err e => .err e
  | .fuelOut => .fuelOut
  | .hostDep => .hostDep

/-! ## Declarative description of the environment chain

The following definitions restate, declaratively, which frames the `set`
walk visits; they are the yardstick the implementation's loop is measured
against. -/

/-- Does the prototype chain starting at `id` reach the root (a frame with
no parent) within `gas` steps?  True for every frame of every store the
evaluator builds, with `gas` = number of frames. -/
def rootReachable (frames : List Frame) : Nat → Nat → Bool
  | _, 0 => false
  | id, gas + 1 =>
    match frames[id]? with
    | none => false
    | some fr =>
      match fr.parent with
      | none => true
      | some p => rootReachable frames p gas

/-- The indices of the frames the chain visits from `id` outward,
excluding the root frame (the frame with no parent). -/
def chainNonRoot (frames : List Frame) : Nat → Nat → List Nat
  | _, 0 => []
  | id, gas + 1 =>
    match frames[id]? with
    | none => []
    | some fr =>
      match fr.parent with
      | none => []
      | some p => id :: chainNonRoot frames p gas

/-- The first frame among `ids` that owns a binding for `n`. -/
def firstOwner (frames : List Frame) (n : String) (ids : List Nat) :
    Option Nat :=
  ids.find? (fun id =>
    match frames[id]? with
    | some fr => ownsName fr n
    | none => false)

/-- The `set` walk, measured against the declarative chain description: on
a chain that reaches the root, the loop mutates the first frame owning the
name among the *non-root* frames of the chain, and falls through to the
`ReferenceError` exactly when no such frame exists — an own binding of the
root is never found. -/
theorem setWalk_eq_firstOwner (frames : List Frame) (n : String) (v : Value) :
    ∀ gas id, rootReachable frames id gas = true →
      setWalk frames n v id gas =
        match firstOwner frames n (chainNonRoot frames id gas) with
        | some fid => .updated (updateBinding frames fid n v)
        | none => .notFound := by
  intro gas
  induction gas with
  | zero => intro id h; simp [rootReachable] at h
  | succ gas ih =>
    intro id h
    rw [rootReachable] at h
    rw [setWalk, chainNonRoot]
    cases hg : frames[id]? with
    | none => simp [hg] at h
    | some fr =>
      simp only [hg] at h ⊢
      cases hp : fr.parent with
      | none => simp [hp, firstOwner]
      | some p =>
        simp only [hp] at h ⊢
        by_cases hown : ownsName fr n
        · simp [hown, firstOwner, List.find?, hg]
        · simp only [hown, Bool.false_eq_true, if_false]
          rw [ih p h]
          simp [firstOwner, List.find?, hg, hown]

/-! ## Helper lemmas about the evaluator and parser -/

/-- Special-form dispatch: an application whose operator is a word naming a
special form goes straight to the handler, whatever the store contains. -/
theorem evaluate_apply_special (fuel : Nat) (n : String) (args : List Expr)
    (envId : Nat) (st : EState) (h : specialFormNames.contains n = true) :
    evaluate (fuel + 1) (.apply (.word n) args) envId st =
      evalSpecialForm fuel n args envId st := by
  have hm : n ∈ specialFormNames := by simpa using h
  simp [evaluate, hm]

/-- An application whose operator is not a special-form word is an
ordinary call. -/
theorem evaluate_apply_ordinary (fuel : Nat) (op : Expr) (args : List Expr)
    (envId : Nat) (st : EState) (h : isSpecialOp op = false) :
    evaluate (fuel + 1) (.apply op args) envId st =
      evalApply fuel op args envId st := by
  cases op with
  | word n => simp [isSpecialOp] at h; simp [evaluate, h]
  | value l => simp [evaluate]
  | apply o a => simp [evaluate]

/-- Whenever the `while` loop terminates normally it hands back the boolean
`false`, whatever its body produced. -/
theorem whileLoop_ok_bool_false (c b : Expr) (envId : Nat) :
    ∀ (fuel : Nat) (st : EState) (r : Value × EState),
      whileLoop fuel c b envId st = .ok r → r.1 = .bool false := by
  intro fuel
  induction fuel with
  | zero => intro st r h; simp [whileLoop] at h
  | succ fuel ih =>
    intro st r h
    rw [whileLoop] at h
    cases hc : evaluate fuel c envId st with
    | ok vs =>
      rw [hc] at h
      simp only [Outcome.bind] at h
      by_cases hf : isJsFalse vs.1
      · simp [hf] at h
        simp [← h]
      · simp only [hf, Bool.false_eq_true, if_false] at h
        cases hb : evaluate fuel b envId vs.2 with
        | ok bs => rw [hb] at h; simp only [Outcome.bind] at h; exact ih bs.2 r h
        | err e => rw [hb] at h; simp [Outcome.bind] at h
        | fuelOut => rw [hb] at h; simp [Outcome.bind] at h
        | hostDep => rw [hb] at h; simp [Outcome.bind] at h
    | err e => rw [hc] at h; simp [Outcome.bind] at h
    | fuelOut => rw [hc] at h; simp [Outcome.bind] at h
    | hostDep => rw [hc] at h; simp [Outcome.bind] at h

/-- `parseExpression` never succeeds on input whose first significant
character is `)`: no lexical rule matches there. -/
theorem parseExpression_rparen (fuel : Nat) (xs : List Char) (r : PRes) :
    parseExpression fuel (')' :: xs) ≠ .ok r := by
  cases fuel with
  | zero => simp [parseExpression]
  | succ fuel =>
    intro h
    rw [parseExpression] at h
    revert h
    simp [skipSpace, skipSpaceAux, jsIsSpace, stringMatch, numberMatch,
      wordMatch, isEggWordChar, List.takeWhile]

/-! ## The claims -/

/-- C9: parsing `+(a, 10)` succeeds and yields exactly the application of
the word `+` to the word `a` and the number literal `10`, in that order. -/
theorem parse_plus_a_10 :
    parse 20 "+(a, 10)" =
      .ok (.apply (.word "+") [.word "a", .value (.num 10)]) := rfl

/-- C2 (amended): the `==` built-in is the host's loose equality, not
variant-strict value equality: operands of the same variant compare equal
exactly when their payloads are equal, but operands of different variants
are compared after numeric coercion (Boolean as 1/0, Text by its numeric
value), so cross-variant pairs such as `==(1, "1")` compare `true`. -/
theorem eq_native_loose_equality :
    (∀ (st : EState) (a b : Int),
      applyNative .eq [.num a, .num b] st = .ok (.bool (decide (a = b)), st)) ∧
    (∀ (st : EState) (s t : String),
      applyNative .eq [.str s, .str t] st = .ok (.bool (decide (s = t)), st)) ∧
    (∀ (st : EState) (p q : Bool),
      applyNative .eq [.bool p, .bool q] st = .ok (.bool (decide (p = q)), st)) ∧
    (∀ (st : EState) (a : Int) (q : Bool),
      applyNative .eq [.num a, .bool q] st =
        .ok (.bool (decide (a = (if q then 1 else 0))), st)) ∧
    (∀ st : EState, applyNative .eq [.num 1, .str "1"] st = .ok (.bool true, st)) :=
  ⟨fun _ _ _ => rfl, fun _ _ _ => rfl, fun _ _ _ => rfl,
   fun _ _ _ => rfl, fun _ => rfl⟩

/-- C2 (counterexample): the operands `1` (a Number) and `"1"` (a Text)
are of different variants, yet the `==` built-in returns `true` for them —
both at the native-call level and for the whole program `==(1, "1")` —
where variant-strict value equality would return `false`. -/
theorem eq_native_cross_variant_true :
    applyNative .eq [.num 1, .str "1"] runState = .ok (.bool true, runState) ∧
    runValue 30 30 ["==(1, \"1\")"] = .ok (.bool true) :=
  ⟨rfl, rfl⟩

/-- C3: an application whose operator is a word naming one of the six
special forms dispatches to the form's handler with the raw argument
expressions, for every store whatsoever — the operator is never looked up
in the environment, so `do(define(if, 1), if(false, 1, 2))` still treats
`if` as the special form and evaluates to `2`. -/
theorem special_form_dispatch_unevaluated :
    (∀ (fuel : Nat) (n : String) (args : List Expr) (envId : Nat) (st : EState),
      specialFormNames.contains n = true →
      evaluate (fuel + 1) (.apply (.word n) args) envId st =
        evalSpecialForm fuel n args envId st) ∧
    runValue 30 30 ["do(define(if, 1), if(false, 1, 2))"] = .ok (.num 2) :=
  ⟨fun fuel n args envId st h => evaluate_apply_special fuel n args envId st h,
   rfl⟩

/-- C3 witness: the dispatch equation at a concrete special-form name,
argument list and store. -/
theorem special_form_dispatch_unevaluated_witness :
    evaluate 2 (.apply (.word "if") []) 1 runState =
      evalSpecialForm 1 "if" [] 1 runState :=
  special_form_dispatch_unevaluated.1 1 "if" [] 1 runState rfl

/-- C5: `if` demands exactly three raw arguments (`Syntax` error
otherwise), evaluates the condition, and evaluates exactly one branch:
the third when the condition is the boolean `false`, the second otherwise;
the untaken branch is never evaluated, so an unbound name there is
harmless. -/
theorem if_three_args_lazy_branches :
    (∀ (g : Nat) (args : List Expr) (envId : Nat) (st : EState),
      args.length ≠ 3 →
      evaluate (g + 2) (.apply (.word "if") args) envId st =
        .err (.syntaxError "Bad number of args to if")) ∧
    (∀ (g : Nat) (c t e : Expr) (envId : Nat) (st : EState),
      evaluate (g + 2) (.apply (.word "if") [c, t, e]) envId st =
        Outcome.bind (evaluate g c envId st) (fun vs =>
          if isJsFalse vs.1 then evaluate g e envId vs.2
          else evaluate g t envId vs.2)) ∧
    runValue 30 30 ["if(true, 1, 2)"] = .ok (.num 1) ∧
    runValue 30 30 ["if(false, 1, 2)"] = .ok (.num 2) ∧
    runValue 30 30 ["if(true, 1, nope)"] = .ok (.num 1) ∧
    runValue 30 30 ["if(false, nope, 2)"] = .ok (.num 2) := by
  refine ⟨?_, fun g c t e envId st => rfl, rfl, rfl, rfl, rfl⟩
  intro g args envId st h
  have hd : evaluate (g + 2) (.apply (.word "if") args) envId st =
      evalSpecialForm (g + 1) "if" args envId st :=
    evaluate_apply_special (g + 1) "if" args envId st rfl
  rcases args with _ | ⟨a, _ | ⟨b, _ | ⟨c, _ | ⟨d, rest⟩⟩⟩⟩
  · exact hd.trans rfl
  · exact hd.trans rfl
  · exact hd.trans rfl
  · simp at h
  · exact hd.trans rfl

/-- C5 witness: the arity conjunct applied to a two-argument `if`. -/
theorem if_three_args_lazy_branches_witness :
    evaluate 3 (.apply (.word "if") [.value (.num 1), .value (.num 2)]) 1 runState =
      .err (.syntaxError "Bad number of args to if") :=
  if_three_args_lazy_branches.1 1 [.value (.num 1), .value (.num 2)] 1 runState
    (by decide)

/-- C6: exactly the boolean `false` is falsy: for every other condition
value — including the number `0`, the empty text, and an empty array —
`if` takes its then branch and `while` evaluates its body and loops
again. -/
theorem only_bool_false_is_falsy :
    (∀ v : Value, isJsFalse v = true ↔ v = .bool false) ∧
    (∀ (g : Nat) (c t e : Expr) (envId : Nat) (st : EState) (vs : Value × EState),
      evaluate g c envId st = .ok vs → vs.1 ≠ .bool false →
      evaluate (g + 2) (.apply (.word "if") [c, t, e]) envId st =
        evaluate g t envId vs.2) ∧
    (∀ (g : Nat) (c b : Expr) (envId : Nat) (st : EState) (vs : Value × EState),
      evaluate g c envId st = .ok vs → vs.1 ≠ .bool false →
      evaluate (g + 3) (.apply (.word "while") [c, b]) envId st =
        Outcome.bind (evaluate g b envId vs.2) (fun bs =>
          whileLoop g c b envId bs.2)) ∧
    runValue 30 30 ["if(0, 1, 2)"] = .ok (.num 1) ∧
    runValue 30 30 ["if(\"\", 1, 2)"] = .ok (.num 1) ∧
    runValue 30 30 ["if(array(), 1, 2)"] = .ok (.num 1) := by
  have hfalse : ∀ v : Value, v ≠ .bool false → isJsFalse v = false := by
    intro v hv
    cases v with
    | bool b => cases b with
      | false => exact absurd rfl hv
      | true => rfl
    | num n => rfl
    | str s => rfl
    | arr l => rfl
    | closure p b e => rfl
    | native f => rfl
  refine ⟨?_, ?_, ?_, rfl, rfl, rfl⟩
  · intro v
    constructor
    · intro h
      cases v with
      | bool b => cases b with
        | false => rfl
        | true => simp [isJsFalse] at h
      | num n => simp [isJsFalse] at h
      | str s => simp [isJsFalse] at h
      | arr l => simp [isJsFalse] at h
      | closure p b e => simp [isJsFalse] at h
      | native f => simp [isJsFalse] at h
    · intro h; subst h; rfl
  · intro g c t e envId st vs hc hv
    have hd : evaluate (g + 2) (.apply (.word "if") [c, t, e]) envId st =
        Outcome.bind (evaluate g c envId st) (fun vs =>
          if isJsFalse vs.1 then evaluate g e envId vs.2
          else evaluate g t envId vs.2) := rfl
    rw [hd, hc]
    simp only [Outcome.bind, hfalse vs.1 hv, Bool.false_eq_true, if_false]
  · intro g c b envId st vs hc hv
    have hd : evaluate (g + 3) (.apply (.word "while") [c, b]) envId st =
        whileLoop (g + 1) c b envId st := rfl
    rw [hd, whileLoop, hc]
    simp only [Outcome.bind, hfalse vs.1 hv, Bool.false_eq_true, if_false]

/-- C6 witness: the then-branch equation for a condition evaluating to the
number `0`, which is not the boolean `false`. -/
theorem only_bool_false_is_falsy_witness :
    evaluate 5 (.apply (.word "if")
        [.value (.num 0), .value (.num 1), .value (.num 2)]) 1 runState =
      evaluate 3 (.value (.num 1)) 1 runState :=
  only_bool_false_is_falsy.2.1 3 (.value (.num 0)) (.value (.num 1))
    (.value (.num 2)) 1 runState (.num 0, runState) rfl (by simp)

/-- C7: `while` demands exactly two raw arguments (`Syntax` error
otherwise); it runs the loop that re-evaluates the condition before each
iteration and stops when the condition is the boolean `false`; on normal
termination its value is always the boolean `false`, whatever the body
produced. -/
theorem while_two_args_returns_false :
    (∀ (g : Nat) (args : List Expr) (envId : Nat) (st : EState),
      args.length ≠ 2 →
      evaluate (g + 2) (.apply (.word "while") args) envId st =
        .err (.syntaxError "Bad number of args to while")) ∧
    (∀ (g : Nat) (c b : Expr) (envId : Nat) (st : EState),
      evaluate (g + 2) (.apply (.word "while") [c, b]) envId st =
        whileLoop g c b envId st) ∧
    (∀ (g : Nat) (c b : Expr) (envId : Nat) (st : EState) (r : Value × EState),
      evaluate (g + 2) (.apply (.word "while") [c, b]) envId st = .ok r →
      r.1 = .bool false) ∧
    (∀ (g : Nat) (c b : Expr) (envId : Nat) (st : EState) (vs : Value × EState),
      evaluate g c envId st = .ok vs → vs.1 = .bool false →
      evaluate (g + 3) (.apply (.word "while") [c, b]) envId st =
        .ok (.bool false, vs.2)) := by
  refine ⟨?_, fun g c b envId st => rfl, ?_, ?_⟩
  · intro g args envId st h
    have hd : evaluate (g + 2) (.apply (.word "while") args) envId st =
        evalSpecialForm (g + 1) "while" args envId st :=
      evaluate_apply_special (g + 1) "while" args envId st rfl
    rcases args with _ | ⟨a, _ | ⟨b, _ | ⟨c, rest⟩⟩⟩
    · exact hd.trans rfl
    · exact hd.trans rfl
    · simp at h
    · exact hd.trans rfl
  · intro g c b envId st r h
    have hd : evaluate (g + 2) (.apply (.word "while") [c, b]) envId st =
        whileLoop g c b envId st := rfl
    rw [hd] at h
    exact whileLoop_ok_bool_false c b envId g st r h
  · intro g c b envId st vs hc hv
    have hd : evaluate (g + 3) (.apply (.word "while") [c, b]) envId st =
        whileLoop (g + 1) c b envId st := rfl
    rw [hd, whileLoop, hc]
    have : isJsFalse vs.1 = true := by rw [hv]; rfl
    simp only [Outcome.bind, this, if_true]

/-- C7 witness: arity failure on one argument, and immediate termination
with the boolean `false` on a `false` condition, at concrete inputs. -/
theorem while_two_args_returns_false_witness :
    evaluate 3 (.apply (.word "while") [.value (.num 1)]) 1 runState =
      .err (.syntaxError "Bad number of args to while") ∧
    evaluate 6 (.apply (.word "while") [.word "false", .value (.num 1)]) 1
        runState = .ok (.bool false, runState) :=
  ⟨while_two_args_returns_false.1 1 [.value (.num 1)] 1 runState (by decide),
   while_two_args_returns_false.2.2.2 3 (.word "false") (.value (.num 1)) 1
     runState (.bool false, runState) rfl rfl⟩

/-- C4: a closure made by `fun` checks its arity (`Type` error on a
mismatch), and on a match evaluates its body in a fresh frame whose
prototype is the frame captured when the `fun` was evaluated and whose own
bindings pair each parameter with its actual; `fun` itself packages the
parameter words, the body and the current frame into that closure; and
`do(define(f, fun(a, fun(b, +(a, b)))), f(4)(5))` evaluates to `9`. -/
theorem fun_closure_invocation :
    (∀ (g : Nat) (opExpr : Expr) (args : List Expr) (params : List String)
       (body : Expr) (defEnv : Nat) (argVals : List Value) (envId : Nat)
       (st st1 st2 : EState),
      isSpecialOp opExpr = false →
      evaluate (g + 1) opExpr envId st = .ok (.closure params body defEnv, st1) →
      evalArgs (g + 1) args envId st1 = .ok (argVals, st2) →
      evaluate (g + 3) (.apply opExpr args) envId st =
        if argVals.length ≠ params.length then
          .err (.typeError "Wrong number of arguments")
        else
          evaluate g body st2.frames.length
            { st2 with
                frames := st2.frames ++ [⟨bindParams params argVals, some defEnv⟩] }) ∧
    (∀ (g : Nat) (a : Expr) (rest : List Expr) (params : List String)
       (envId : Nat) (st : EState),
      wordNames (splitLast a rest).1 = some params →
      evaluate (g + 2) (.apply (.word "fun") (a :: rest)) envId st =
        .ok (.closure params (splitLast a rest).2 envId, st)) ∧
    runValue 40 40 ["do(define(f, fun(a, fun(b, +(a, b)))), f(4)(5))"] =
      .ok (.num 9) := by
  refine ⟨?_, ?_, rfl⟩
  · intro g opExpr args params body defEnv argVals envId st st1 st2 hns hop hargs
    have h1 : evaluate (g + 3) (.apply opExpr args) envId st =
        evalApply (g + 2) opExpr args envId st :=
      evaluate_apply_ordinary (g + 2) opExpr args envId st hns
    have h2 : evalApply (g + 2) opExpr args envId st =
        Outcome.bind (evaluate (g + 1) opExpr envId st) (fun vs =>
          if isCallable vs.1 then
            Outcome.bind (evalArgs (g + 1) args envId vs.2) (fun avs =>
              callValue (g + 1) vs.1 avs.1 avs.2)
          else .err (.typeError "Applying a non-function.")) := rfl
    rw [h1, h2, hop]
    simp only [Outcome.bind]
    rw [hargs]
    simp only [Outcome.bind, isCallable, if_true]
    rfl
  · intro g a rest params envId st hw
    have hd : evaluate (g + 2) (.apply (.word "fun") (a :: rest)) envId st =
        (match wordNames (splitLast a rest).1 with
         | some ps => .ok (.closure ps (splitLast a rest).2 envId, st)
         | none => .err (.syntaxError "Arg names must be words")) := rfl
    rw [hd, hw]

/-- C4 witness: invoking a one-parameter identity closure bound in the
store with one actual argument evaluates its body in the freshly bound
frame and yields that argument. -/
theorem fun_closure_invocation_witness :
    evaluate 6 (.apply (.word "idf") [.value (.num 7)]) 1
        ⟨[topFrame, ⟨[("idf", .closure ["a"] (.word "a") 1)], some 0⟩], []⟩ =
      .ok (.num 7,
        ⟨[topFrame, ⟨[("idf", .closure ["a"] (.word "a") 1)], some 0⟩,
          ⟨[("a", .num 7)], some 1⟩], []⟩) :=
  (fun_closure_invocation.1 3 (.word "idf") [.value (.num 7)] ["a"]
    (.word "a") 1 [.num 7] 1
    ⟨[topFrame, ⟨[("idf", .closure ["a"] (.word "a") 1)], some 0⟩], []⟩
    ⟨[topFrame, ⟨[("idf", .closure ["a"] (.word "a") 1)], some 0⟩], []⟩
    ⟨[topFrame, ⟨[("idf", .closure ["a"] (.word "a") 1)], some 0⟩], []⟩
    rfl rfl rfl).trans rfl

/-- C8: line comments are transparent to parsing: `skipSpace` (applied
before every token) absorbs a leading `# ...`-to-newline comment, so
prefixing a program with `# hello\n` changes nothing, and
`parse("# hello\nx")` yields the same tree as `parse("x")`. -/
theorem comments_transparent_to_parsing :
    (∀ l : List Char,
      skipSpace (['#', ' ', 'h', 'e', 'l', 'l', 'o', '\n'] ++ l) = skipSpace l) ∧
    (∀ (fuel : Nat) (l : List Char),
      parseExpression fuel (['#', ' ', 'h', 'e', 'l', 'l', 'o', '\n'] ++ l) =
        parseExpression fuel l) ∧
    (∀ (fuel : Nat) (s : String),
      parse fuel ("# hello\n" ++ s) = parse fuel s) ∧
    parse 20 "# hello\nx" = parse 20 "x" ∧
    parse 20 "x" = .ok (.word "x") := by
  have hpe : ∀ (fuel : Nat) (l : List Char),
      parseExpression fuel (['#', ' ', 'h', 'e', 'l', 'l', 'o', '\n'] ++ l) =
        parseExpression fuel l := by
    intro fuel l
    cases fuel with
    | zero => rfl
    | succ fuel => rfl
  refine ⟨fun l => rfl, hpe, ?_, rfl, rfl⟩
  intro fuel s
  unfold parse
  rw [show (("# hello\n" : String) ++ s).data =
      ['#', ' ', 'h', 'e', 'l', 'l', 'o', '\n'] ++ s.data from rfl]
  rw [hpe fuel s.data]

/-- C10: the argument-list loop accepts one trailing comma: after an
argument followed by a comma, the loop first re-checks for `)` and closes
the list exactly as it would had the `)` directly followed the argument —
so `parse("f(a,)")` succeeds with the same tree as `parse("f(a)")`. -/
theorem trailing_comma_in_argument_list :
    (∀ (g : Nat) (op a : Expr) (args : List Expr) (prog rst t u : List Char),
      parseExpression (g + 1) prog = .ok ⟨a, rst⟩ →
      skipSpace rst = ',' :: t →
      skipSpace t = ')' :: u →
      parseArgs (g + 2) op args prog = parseApply g (.apply op (args ++ [a])) u) ∧
    (∀ (g : Nat) (op a : Expr) (args : List Expr) (prog rst u : List Char),
      parseExpression (g + 1) prog = .ok ⟨a, rst⟩ →
      skipSpace rst = ')' :: u →
      parseArgs (g + 2) op args prog = parseApply g (.apply op (args ++ [a])) u) ∧
    parse 20 "f(a,)" = parse 20 "f(a)" ∧
    parse 20 "f(a)" = .ok (.apply (.word "f") [.word "a"]) := by
  have hstep : ∀ (g : Nat) (op : Expr) (args : List Expr) (prog : List Char),
      parseArgs (g + 2) op args prog =
        (match prog with
         | ')' :: rest => parseApply (g + 1) (.apply op args) rest
         | _ =>
           match parseExpression (g + 1) prog with
           | .ok r =>
             match skipSpace r.rest with
             | ',' :: rest2 => parseArgs (g + 1) op (args ++ [r.expr]) (skipSpace rest2)
             | ')' :: rest2 => parseArgs (g + 1) op (args ++ [r.expr]) (')' :: rest2)
             | _ => .error (.syntaxErr "Expected \x27,\x27 or \x27)\x27")
           | .error e => .error e) :=
    fun g op args prog => rfl
  refine ⟨?_, ?_, rfl, rfl⟩
  · intro g op a args prog rst t u h1 h2 h3
    rw [hstep]
    split
    · exact absurd h1 (parseExpression_rparen _ _ _)
    · rw [h1]
      simp only [h2]
      rw [h3]
      rfl
  · intro g op a args prog rst u h1 h2
    rw [hstep]
    split
    · exact absurd h1 (parseExpression_rparen _ _ _)
    · rw [h1]
      simp only [h2]
      rfl

/-- C10 witness: both loop equations at the concrete suffixes `a,)` and
`a)`, landing in the same continuation. -/
theorem trailing_comma_in_argument_list_witness :
    parseArgs 5 (.word "f") [] ['a', ',', ')'] =
      parseApply 3 (.apply (.word "f") [.word "a"]) [] ∧
    parseArgs 5 (.word "f") [] ['a', ')'] =
      parseApply 3 (.apply (.word "f") [.word "a"]) [] :=
  ⟨trailing_comma_in_argument_list.1 3 (.word "f") (.word "a") []
      ['a', ',', ')'] [',', ')'] [')'] [] rfl rfl rfl,
   trailing_comma_in_argument_list.2.1 3 (.word "f") (.word "a") []
      ['a', ')'] [')'] [] rfl rfl⟩

/-- C1 (amended): evaluating `set(word, valueExpr)` first evaluates the
value expression, then walks the chain from the current frame; the first
frame that owns a binding for the name *among the frames with a parent* —
i.e. excluding the chain's root frame — is mutated in place and the
assigned value is returned; a `Reference` error is raised exactly when no
such non-root frame owns the name.  The loop guard
`while (Object.getPrototypeOf(env) != null)` never lets the walk examine
the root, so a binding owned only by the root (global) frame is not found.
The nearest-enclosing-binding example still holds:
`do(define(x,4), define(setx, fun(val, set(x, val))), setx(50), x)`
evaluates to `50`, and `set(quux, true)` on a never-defined name fails
with a `Reference` error. -/
theorem set_mutates_nearest_nonroot_frame :
    (∀ (g : Nat) (n : String) (vexpr : Expr) (envId : Nat) (st st2 : EState)
       (v : Value),
      evaluate g vexpr envId st = .ok (v, st2) →
      rootReachable st2.frames envId st2.frames.length = true →
      evaluate (g + 2) (.apply (.word "set") [.word n, vexpr]) envId st =
        match firstOwner st2.frames n
            (chainNonRoot st2.frames envId st2.frames.length) with
        | some fid => .ok (v, { st2 with frames := updateBinding st2.frames fid n v })
        | none => .err (.referenceError ("Unknown variable: " ++ n))) ∧
    runValue 60 60
        ["do( define(x, 4), define(setx, fun(val, set(x, val))), setx(50), x)"] =
      .ok (.num 50) ∧
    runValue 30 30 ["set(quux, true)"] =
      .err (.referenceError "Unknown variable: quux") := by
  refine ⟨?_, rfl, rfl⟩
  intro g n vexpr envId st st2 v hv hr
  have hd : evaluate (g + 2) (.apply (.word "set") [.word n, vexpr]) envId st =
      Outcome.bind (evaluate g vexpr envId st) (fun vs =>
        match setWalk vs.2.frames n vs.1 envId vs.2.frames.length with
        | .updated frames2 => .ok (vs.1, { vs.2 with frames := frames2 })
        | .notFound => .err (.referenceError ("Unknown variable: " ++ n))
        | .gasOut => .hostDep) := rfl
  rw [hd, hv]
  simp only [Outcome.bind]
  rw [setWalk_eq_firstOwner st2.frames n v st2.frames.length envId hr]
  cases firstOwner st2.frames n
      (chainNonRoot st2.frames envId st2.frames.length) with
  | some fid => rfl
  | none => rfl

/-- C1 witness: setting `x` when the current (non-root) frame owns it
mutates that frame in place and returns the assigned value. -/
theorem set_mutates_nearest_nonroot_frame_witness :
    evaluate 5 (.apply (.word "set") [.word "x", .value (.num 50)]) 1
        ⟨[topFrame, ⟨[("x", .num 4)], some 0⟩], []⟩ =
      .ok (.num 50, ⟨[topFrame, ⟨[("x", .num 50)], some 0⟩], []⟩) :=
  (set_mutates_nearest_nonroot_frame.1 3 "x" (.value (.num 50)) 1
    ⟨[topFrame, ⟨[("x", .num 4)], some 0⟩], []⟩
    ⟨[topFrame, ⟨[("x", .num 4)], some 0⟩], []⟩
    (.num 50) rfl rfl).trans rfl

/-- C1 (counterexample): the root frame owns a binding for `true`, yet
evaluating `set(true, 1)` in a child of the root raises the `Reference`
error — the claim's "any frame in the chain, including the root, is
mutated" and its "error iff no frame in the whole chain owns the name" are
both violated, because the walk never examines the root frame. -/
theorem set_skips_root_frame :
    ownsName topFrame "true" = true ∧
    runValue 30 30 ["set(true, 1)"] =
      .err (.referenceError "Unknown variable: true") :=
  ⟨rfl, rfl⟩

end Egg
